import Mathlib

/-!
Verification of the acid dissociation calculator in `index.py`.

The source is a stateless Python class whose methods are pure arithmetic on
double-precision floats, using `np.sqrt` and `np.log10`.  The embedding
models finite floats as exact real numbers, the NumPy special values
`inf`, `-inf`, `nan` explicitly (NumPy returns them with a warning instead
of raising), and raised Python exceptions (`TypeError`, `ValueError`,
`ZeroDivisionError`) through `Except`.

One line of the source is load-bearing for several claims: the first
statement of `ka_from_ph` is the destructuring assignment
`[H] = 10 ** (-pH)`, which binds a scalar float to a one-element list
pattern and therefore raises `TypeError` on every call.  The embedding
keeps that statement as written.
-/

/-- Python-level exceptions that the calculator's code can raise. -/
inductive PyErr where
  | typeError
  | valueError
  | zeroDivisionError

/-- Result of a NumPy/Python float computation: a finite value (modelled as
an exact real), positive infinity, negative infinity, or NaN. -/
inductive PyF where
  | val (x : ℝ)
  | inf
  | negInf
  | nan

/-- Unary minus on a Python float. -/
def PyF.neg : PyF → PyF
  | .val x => .val (-x)
  | .inf => .negInf
  | .negInf => .inf
  | .nan => .nan

/-- Adding the finite float `a` on the left of a Python float: `a + v`. -/
def PyF.addL (a : ℝ) : PyF → PyF
  | .val x => .val (a + x)
  | .inf => .inf
  | .negInf => .negInf
  | .nan => .nan

/-- Halving a Python float: `v / 2`. -/
noncomputable def PyF.half : PyF → PyF
  | .val x => .val (x / 2)
  | .inf => .inf
  | .negInf => .negInf
  | .nan => .nan

/-- Raising ten to the negated value: `10 ** (-v)` on a Python float `v`.
In Python, `10 ** float('-inf') = 0.0` and `10 ** float('inf') = inf`. -/
noncomputable def PyF.pow10neg : PyF → PyF
  | .val x => .val ((10 : ℝ) ^ (-x))
  | .inf => .val 0
  | .negInf => .inf
  | .nan => .nan

/-- Division of a Python float by the finite float `c`.  Python raises
`ZeroDivisionError` when `c = 0`; otherwise infinities keep or flip their
sign with the sign of `c` and NaN propagates. -/
noncomputable def PyF.fdiv (v : PyF) (c : ℝ) : Except PyErr PyF :=
  if c = 0 then .error .zeroDivisionError
  else .ok (match v with
    | .val x => .val (x / c)
    | .inf => if 0 < c then .inf else .negInf
    | .negInf => if 0 < c then .negInf else .inf
    | .nan => .nan)

/-- The function `np.sqrt` on a finite double: real square root on
non-negative input, `nan` (with a runtime warning, no exception) on
negative input. -/
noncomputable def np_sqrt (x : ℝ) : PyF :=
  if 0 ≤ x then .val (Real.sqrt x) else .nan

/-- The function `np.log10` on a finite double: base-ten logarithm on
positive input, `-inf` at zero, `nan` on negative input; in no case does
it raise an exception. -/
noncomputable def np_log10 (x : ℝ) : PyF :=
  if 0 < x then .val (Real.logb 10 x)
  else if x = 0 then .negInf
  else .nan

/-- The function `np.log10` extended to special float values:
`log10(inf) = inf`, `log10(-inf) = nan`, `log10(nan) = nan`. -/
noncomputable def np_log10F : PyF → PyF
  | .val x => np_log10 x
  | .inf => .inf
  | .negInf => .nan
  | .nan => .nan

/-- A Python object as far as the first statement of `ka_from_ph` is
concerned: the right-hand side of the assignment is either a scalar float
or a list of floats. -/
inductive PyObj where
  | float (x : ℝ)
  | list (xs : List ℝ)

/-- Destructuring assignment to a one-element list pattern, as in
`[H] = rhs`: succeeds only when the right-hand side is an iterable of
length one.  A scalar float is not iterable, so Python raises `TypeError`;
an iterable of the wrong length raises `ValueError`. -/
def unpackSingle : PyObj → Except PyErr ℝ
  | .list [x] => .ok x
  | .list _ => .error .valueError
  | .float _ => .error .typeError

/-- Embedding of `ka_from_ph(pH, C, approximation)` from `index.py`.  Its
first statement is the destructuring assignment `[H] = 10 ** (-pH)`; were
that to succeed, the branch would follow the five percent rule with a
strict `<` comparison, using `H ** 2 / C` in the approximate branch and
`H ** 2 / (C - H)` in the exact branch. -/
noncomputable def ka_from_ph (pH C : ℝ) (approximation : Bool) : Except PyErr ℝ :=
  match unpackSingle (PyObj.float ((10 : ℝ) ^ (-pH))) with
  | .error e => .error e
  | .ok H =>
    if approximation = true ∧ H / C < 0.05 then .ok (H ^ 2 / C)
    else .ok (H ^ 2 / (C - H))

/-- Embedding of `ph_from_ka(Ka, C)` from `index.py`: it forms the
discriminant `Ka ** 2 + 4 * Ka * C`, takes the `+` branch of the quadratic
formula `H = (-Ka + np.sqrt(discriminant)) / 2`, and returns
`pH = -np.log10(H)`. -/
noncomputable def ph_from_ka (Ka C : ℝ) : PyF :=
  let discriminant := Ka ^ 2 + 4 * Ka * C
  let H := PyF.half (PyF.addL (-Ka) (np_sqrt discriminant))
  PyF.neg (np_log10F H)

/-- Embedding of `pka_from_ka(Ka)` from `index.py`: `-np.log10(Ka)`. -/
noncomputable def pka_from_ka (Ka : ℝ) : PyF :=
  PyF.neg (np_log10 Ka)

/-- Embedding of `ka_from_pka(pKa)` from `index.py`: `10 ** (-pKa)`,
always a finite positive float. -/
noncomputable def ka_from_pka (pKa : ℝ) : ℝ :=
  (10 : ℝ) ^ (-pKa)

/-- Embedding of `degree_of_dissociation(Ka, C)` from `index.py`: it calls
`ph_from_ka`, recovers `H = 10 ** (-pH)`, and returns `H / C`. -/
noncomputable def degree_of_dissociation (Ka C : ℝ) : Except PyErr PyF :=
  PyF.fdiv (PyF.pow10neg (ph_from_ka Ka C)) C

/-- Embedding of `buffer_ph(pKa, acid_conc, salt_conc)` from `index.py`:
`pKa + np.log10(salt_conc / acid_conc)`.  The Python float division raises
`ZeroDivisionError` when `acid_conc = 0`; `np.log10` never raises. -/
noncomputable def buffer_ph (pKa acid_conc salt_conc : ℝ) : Except PyErr PyF :=
  if acid_conc = 0 then .error .zeroDivisionError
  else .ok (PyF.addL pKa (np_log10 (salt_conc / acid_conc)))

/-- Shorthand for the positive quadratic root computed by `ph_from_ka`. -/
noncomputable def Hroot (Ka C : ℝ) : ℝ :=
  (-Ka + Real.sqrt (Ka ^ 2 + 4 * Ka * C)) / 2

lemma discriminant_pos (Ka C : ℝ) (hKa : 0 < Ka) (hC : 0 < C) :
    0 < Ka ^ 2 + 4 * Ka * C := by
  nlinarith [sq_nonneg Ka, mul_pos hKa hC]

lemma Hroot_pos (Ka C : ℝ) (hKa : 0 < Ka) (hC : 0 < C) : 0 < Hroot Ka C := by
  have hlt : Ka < Real.sqrt (Ka ^ 2 + 4 * Ka * C) := by
    rw [Real.lt_sqrt hKa.le]
    nlinarith [mul_pos hKa hC]
  unfold Hroot
  linarith

lemma Hroot_root (Ka C : ℝ) (hKa : 0 < Ka) (hC : 0 < C) :
    Hroot Ka C ^ 2 + Ka * Hroot Ka C - Ka * C = 0 := by
  have hs : Real.sqrt (Ka ^ 2 + 4 * Ka * C) ^ 2 = Ka ^ 2 + 4 * Ka * C :=
    Real.sq_sqrt (discriminant_pos Ka C hKa hC).le
  unfold Hroot
  linear_combination hs / 4

lemma Hroot_lt_C (Ka C : ℝ) (hKa : 0 < Ka) (hC : 0 < C) : Hroot Ka C < C := by
  have hr := Hroot_root Ka C hKa hC
  have hp := Hroot_pos Ka C hKa hC
  nlinarith [mul_pos hKa hp, sq_nonneg (Hroot Ka C)]

lemma ph_from_ka_eq (Ka C : ℝ) (hKa : 0 < Ka) (hC : 0 < C) :
    ph_from_ka Ka C = PyF.val (-Real.logb 10 (Hroot Ka C)) := by
  have hd := (discriminant_pos Ka C hKa hC).le
  have hH := Hroot_pos Ka C hKa hC
  simp only [ph_from_ka, np_sqrt, if_pos hd, PyF.addL, PyF.half, np_log10F]
  rw [show (-Ka + Real.sqrt (Ka ^ 2 + 4 * Ka * C)) / 2 = Hroot Ka C from rfl]
  simp only [np_log10, if_pos hH, PyF.neg]

lemma root_unique (Ka C x : ℝ) (hKa : 0 < Ka) (hC : 0 < C) (hx : 0 ≤ x)
    (hroot : x ^ 2 + Ka * x - Ka * C = 0) : x = Hroot Ka C := by
  have hr := Hroot_root Ka C hKa hC
  have hp := Hroot_pos Ka C hKa hC
  have h0 : (x - Hroot Ka C) * (x + Hroot Ka C + Ka) = 0 := by
    linear_combination hroot - hr
  rcases mul_eq_zero.mp h0 with h | h
  · exact sub_eq_zero.mp h
  · linarith

lemma Hroot_sc_lb : (1332 / 10 ^ 6 : ℝ) < Hroot 1.8e-5 0.1 := by
  have hs : (26833 / 10 ^ 7 : ℝ) <
      Real.sqrt ((1.8e-5 : ℝ) ^ 2 + 4 * 1.8e-5 * 0.1) := by
    rw [Real.lt_sqrt (by norm_num)]
    norm_num
  unfold Hroot
  linarith

lemma Hroot_sc_ub : Hroot 1.8e-5 0.1 < 1333 / 10 ^ 6 := by
  have hs : Real.sqrt ((1.8e-5 : ℝ) ^ 2 + 4 * 1.8e-5 * 0.1) <
      26834 / 10 ^ 7 := by
    rw [Real.sqrt_lt' (by norm_num)]
    norm_num
  unfold Hroot
  linarith

lemma logb_sc_lb : -(2.9 : ℝ) < Real.logb 10 (Hroot 1.8e-5 0.1) := by
  have hb : (1 : ℝ) < 10 := by norm_num
  have hlb := Hroot_sc_lb
  have hp10 : ((10 : ℝ) ^ (29 : ℕ))⁻¹ < Hroot 1.8e-5 0.1 ^ (10 : ℕ) := by
    have h1 : ((1332 / 10 ^ 6 : ℝ)) ^ (10 : ℕ) < Hroot 1.8e-5 0.1 ^ (10 : ℕ) :=
      pow_lt_pow_left₀ hlb (by norm_num) (by norm_num)
    have h2 : ((10 : ℝ) ^ (29 : ℕ))⁻¹ < ((1332 / 10 ^ 6 : ℝ)) ^ (10 : ℕ) := by
      norm_num
    linarith
  have h3 : Real.logb 10 (((10 : ℝ) ^ (29 : ℕ))⁻¹) <
      Real.logb 10 (Hroot 1.8e-5 0.1 ^ (10 : ℕ)) :=
    Real.logb_lt_logb hb (by positivity) hp10
  simp only [Real.logb_inv, Real.logb_pow, Real.logb_self_eq_one hb] at h3
  push_cast at h3
  linarith

lemma logb_sc_ub : Real.logb 10 (Hroot 1.8e-5 0.1) < -(2.85 : ℝ) := by
  have hb : (1 : ℝ) < 10 := by norm_num
  have hub := Hroot_sc_ub
  have hpos : (0 : ℝ) < Hroot 1.8e-5 0.1 :=
    Hroot_pos 1.8e-5 0.1 (by norm_num) (by norm_num)
  have hp20 : Hroot 1.8e-5 0.1 ^ (20 : ℕ) < ((10 : ℝ) ^ (57 : ℕ))⁻¹ := by
    have h1 : Hroot 1.8e-5 0.1 ^ (20 : ℕ) < ((1333 / 10 ^ 6 : ℝ)) ^ (20 : ℕ) :=
      pow_lt_pow_left₀ hub hpos.le (by norm_num)
    have h2 : ((1333 / 10 ^ 6 : ℝ)) ^ (20 : ℕ) < ((10 : ℝ) ^ (57 : ℕ))⁻¹ := by
      norm_num
    linarith
  have h3 : Real.logb 10 (Hroot 1.8e-5 0.1 ^ (20 : ℕ)) <
      Real.logb 10 (((10 : ℝ) ^ (57 : ℕ))⁻¹) :=
    Real.logb_lt_logb hb (by positivity) hp20
  simp only [Real.logb_inv, Real.logb_pow, Real.logb_self_eq_one hb] at h3
  push_cast at h3
  linarith

/-- Claim C3: for positive Ka and C, `ph_from_ka` has a non-negative
discriminant, computes the `+`-branch root
`H = (-Ka + sqrt (Ka^2 + 4*Ka*C)) / 2` — the unique non-negative root of
`x^2 + Ka*x - Ka*C = 0` — and returns `-log10 H`; and
`ph_from_ka 1.8e-5 0.10` is approximately `2.87`. -/
theorem C3_ph_from_ka_correct :
    (∀ Ka C : ℝ, 0 < Ka → 0 < C →
      0 ≤ Ka ^ 2 + 4 * Ka * C ∧
      ph_from_ka Ka C =
        PyF.val (-Real.logb 10 ((-Ka + Real.sqrt (Ka ^ 2 + 4 * Ka * C)) / 2)) ∧
      0 ≤ (-Ka + Real.sqrt (Ka ^ 2 + 4 * Ka * C)) / 2 ∧
      ((-Ka + Real.sqrt (Ka ^ 2 + 4 * Ka * C)) / 2) ^ 2 +
          Ka * ((-Ka + Real.sqrt (Ka ^ 2 + 4 * Ka * C)) / 2) - Ka * C = 0 ∧
      (∀ x : ℝ, 0 ≤ x → x ^ 2 + Ka * x - Ka * C = 0 →
        x = (-Ka + Real.sqrt (Ka ^ 2 + 4 * Ka * C)) / 2)) ∧
    (∃ p : ℝ, ph_from_ka 1.8e-5 0.1 = PyF.val p ∧ |p - 2.87| < 0.05) := by
  constructor
  · intro Ka C hKa hC
    refine ⟨(discriminant_pos Ka C hKa hC).le, ph_from_ka_eq Ka C hKa hC,
      (Hroot_pos Ka C hKa hC).le, Hroot_root Ka C hKa hC, ?_⟩
    intro x hx hroot
    exact root_unique Ka C x hKa hC hx hroot
  · refine ⟨-Real.logb 10 (Hroot 1.8e-5 0.1),
      ph_from_ka_eq 1.8e-5 0.1 (by norm_num) (by norm_num), ?_⟩
    have h1 := logb_sc_lb
    have h2 := logb_sc_ub
    rw [abs_lt]
    constructor
    · linarith
    · linarith

/-- Witness for claim C3 at `Ka = 2`, `C = 3/2`. -/
theorem C3_ph_from_ka_correct_witness :
    0 ≤ (2 : ℝ) ^ 2 + 4 * 2 * (3 / 2) ∧
    ph_from_ka 2 (3 / 2) =
      PyF.val (-Real.logb 10
        ((-2 + Real.sqrt ((2 : ℝ) ^ 2 + 4 * 2 * (3 / 2))) / 2)) ∧
    0 ≤ (-2 + Real.sqrt ((2 : ℝ) ^ 2 + 4 * 2 * (3 / 2))) / 2 ∧
    ((-2 + Real.sqrt ((2 : ℝ) ^ 2 + 4 * 2 * (3 / 2))) / 2) ^ 2 +
        2 * ((-2 + Real.sqrt ((2 : ℝ) ^ 2 + 4 * 2 * (3 / 2))) / 2) - 2 * (3 / 2) = 0 ∧
    (∀ x : ℝ, 0 ≤ x → x ^ 2 + 2 * x - 2 * (3 / 2) = 0 →
      x = (-2 + Real.sqrt ((2 : ℝ) ^ 2 + 4 * 2 * (3 / 2))) / 2) :=
  C3_ph_from_ka_correct.1 2 (3 / 2) (by norm_num) (by norm_num)

/-- Claim C5 (code bug): with `salt_conc = 0` and positive `acid_conc`,
`buffer_ph` silently returns `-inf` (the value of
`4.76 + np.log10(0.0)`) instead of failing with a domain error; only the
`acid_conc = 0` case happens to fail, with `ZeroDivisionError` raised by
the float division, as at the scenario `buffer_ph(4.76, 0.0, 0.10)`. -/
theorem C5_buffer_ph_silent_neg_inf :
    buffer_ph 4.76 0.1 0 = Except.ok PyF.negInf ∧
    buffer_ph 4.76 0 0.1 = Except.error PyErr.zeroDivisionError := by
  constructor
  · unfold buffer_ph
    rw [if_neg (by norm_num)]
    norm_num [np_log10, PyF.addL]
  · unfold buffer_ph
    rw [if_pos rfl]

/-- Claim C6 (code bug): for `Ka < 0` the discriminant is negative, so
`np.sqrt` yields NaN, which propagates and is silently returned as the
pH, instead of the domain error the specification requires. -/
theorem C6_ph_from_ka_silent_nan :
    ph_from_ka (-1.8e-5) 0.1 = PyF.nan := by
  have hd : ¬ (0 : ℝ) ≤ ((-1.8e-5 : ℝ) ^ 2 + 4 * (-1.8e-5) * 0.1) := by norm_num
  simp only [ph_from_ka, np_sqrt, if_neg hd, PyF.addL, PyF.half, np_log10F,
    PyF.neg]

/-- Claim C8: for every `Ka > 0`, `pka_from_ka` returns the finite value
`-log10 Ka` and `ka_from_pka` maps it back to exactly `Ka`. -/
theorem C8_pka_ka_round_trip (Ka : ℝ) (hKa : 0 < Ka) :
    pka_from_ka Ka = PyF.val (-Real.logb 10 Ka) ∧
    ka_from_pka (-Real.logb 10 Ka) = Ka := by
  constructor
  · unfold pka_from_ka np_log10
    rw [if_pos hKa]
    rfl
  · unfold ka_from_pka
    rw [neg_neg]
    exact Real.rpow_logb (by norm_num) (by norm_num) hKa

/-- Witness for claim C8 at `Ka = 10`. -/
theorem C8_pka_ka_round_trip_witness :
    pka_from_ka 10 = PyF.val (-Real.logb 10 10) ∧
    ka_from_pka (-Real.logb 10 10) = 10 :=
  C8_pka_ka_round_trip 10 (by norm_num)

/-- Claim C1: for every input `(pH, C, approximation)`, the first
statement of `ka_from_ph` assigns the scalar `10 ** (-pH)` to the list
pattern `[H]`, so the call raises `TypeError` before any equilibrium
arithmetic and never returns a Ka value. -/
theorem C1_ka_from_ph_always_type_error (pH C : ℝ) (approximation : Bool) :
    ka_from_ph pH C approximation = Except.error PyErr.typeError := rfl

/-- Claim C2 (code bug): at the documented scenario `pH = 2.89`,
`C = 0.100`, `approximation = true`, the code raises `TypeError` instead
of computing `H = 10 ** (-pH)` and returning `H ** 2 / C`. -/
theorem C2_ka_from_ph_scenario_type_error :
    ka_from_ph 2.89 0.1 true = Except.error PyErr.typeError := rfl

/-- Claim C7 (code bug): even at an input whose `H / C` sits exactly on
the five percent threshold (`pH = log10 200`, so `H = 0.005` and
`C = 0.1` give `H / C = 0.05`), the code raises `TypeError` before the
branch comparison is reached, instead of returning the exact-branch value
`H ** 2 / (C - H)`. -/
theorem C7_ka_from_ph_threshold_type_error :
    ka_from_ph (Real.logb 10 200) 0.1 true = Except.error PyErr.typeError := rfl

/-- Claim C4 (code bug): the round trip fails: whatever finite pH value
`ph_from_ka` returns, feeding it back through `ka_from_ph` with
`approximation = false` raises `TypeError` instead of recovering Ka. -/
theorem C4_round_trip_type_error (Ka C p : ℝ)
    (_h : ph_from_ka Ka C = PyF.val p) :
    ka_from_ph p C false = Except.error PyErr.typeError := rfl

/-- Witness for claim C4 at `Ka = 2`, `C = 3/2`, where the quadratic root
is exactly `1` and the pH exactly `0`. -/
theorem C4_round_trip_type_error_witness :
    ph_from_ka 2 (3 / 2) = PyF.val 0 ∧
    ka_from_ph 0 (3 / 2) false = Except.error PyErr.typeError := by
  have h : ph_from_ka 2 (3 / 2) = PyF.val 0 := by
    have h16 : Real.sqrt ((2 : ℝ) ^ 2 + 4 * 2 * (3 / 2)) = 4 := by
      rw [show ((2 : ℝ) ^ 2 + 4 * 2 * (3 / 2)) = 4 ^ 2 by norm_num]
      exact Real.sqrt_sq (by norm_num)
    have he := ph_from_ka_eq 2 (3 / 2) (by norm_num) (by norm_num)
    rw [he]
    unfold Hroot
    rw [h16]
    norm_num
  exact ⟨h, C4_round_trip_type_error 2 (3 / 2) 0 h⟩

lemma Hroot_lt_Hroot (C Ka1 Ka2 : ℝ) (hC : 0 < C) (h1 : 0 < Ka1)
    (h12 : Ka1 < Ka2) : Hroot Ka1 C < Hroot Ka2 C := by
  have h2 : 0 < Ka2 := lt_trans h1 h12
  have r1 := Hroot_root Ka1 C h1 hC
  have r2 := Hroot_root Ka2 C h2 hC
  have p1 := Hroot_pos Ka1 C h1 hC
  have p2 := Hroot_pos Ka2 C h2 hC
  have c1 := Hroot_lt_C Ka1 C h1 hC
  have c2 := Hroot_lt_C Ka2 C h2 hC
  by_contra hle
  push_neg at hle
  nlinarith [mul_pos (sub_pos.mpr h12) (sub_pos.mpr c2),
    mul_nonneg h1.le (sub_nonneg.mpr hle),
    mul_nonneg (sub_nonneg.mpr hle)
      (by linarith : (0 : ℝ) ≤ Hroot Ka1 C + Hroot Ka2 C)]

/-- Claim C9: for fixed `C > 0`, the map `Ka` to `ph_from_ka Ka C` is
strictly decreasing on positive Ka: a larger Ka yields a strictly smaller
pH value. -/
theorem C9_ph_from_ka_strict_decreasing (C Ka1 Ka2 : ℝ) (hC : 0 < C)
    (h1 : 0 < Ka1) (h12 : Ka1 < Ka2) :
    ∃ p1 p2 : ℝ, ph_from_ka Ka1 C = PyF.val p1 ∧
      ph_from_ka Ka2 C = PyF.val p2 ∧ p2 < p1 := by
  have h2 : 0 < Ka2 := lt_trans h1 h12
  refine ⟨-Real.logb 10 (Hroot Ka1 C), -Real.logb 10 (Hroot Ka2 C),
    ph_from_ka_eq Ka1 C h1 hC, ph_from_ka_eq Ka2 C h2 hC, ?_⟩
  have hlt := Hroot_lt_Hroot C Ka1 Ka2 hC h1 h12
  have hlog := Real.logb_lt_logb (by norm_num : (1 : ℝ) < 10)
    (Hroot_pos Ka1 C h1 hC) hlt
  linarith

/-- Witness for claim C9 at `C = 1`, `Ka1 = 1`, `Ka2 = 2`. -/
theorem C9_ph_from_ka_strict_decreasing_witness :
    ∃ p1 p2 : ℝ, ph_from_ka 1 1 = PyF.val p1 ∧
      ph_from_ka 2 1 = PyF.val p2 ∧ p2 < p1 :=
  C9_ph_from_ka_strict_decreasing 1 1 2 (by norm_num) (by norm_num)
    (by norm_num)

/-- Claim C10: for every `Ka > 0` and `C > 0`, `degree_of_dissociation`
returns a finite value strictly between 0 and 1, equal to `H / C` with
`H` recovered as ten to the power of the negated pH from `ph_from_ka`. -/
theorem C10_degree_of_dissociation_bounds (Ka C : ℝ) (hKa : 0 < Ka)
    (hC : 0 < C) :
    ∃ p α : ℝ, ph_from_ka Ka C = PyF.val p ∧
      degree_of_dissociation Ka C = Except.ok (PyF.val α) ∧
      α = (10 : ℝ) ^ (-p) / C ∧ 0 < α ∧ α < 1 := by
  have hH := Hroot_pos Ka C hKa hC
  have heq := ph_from_ka_eq Ka C hKa hC
  have hpow : (10 : ℝ) ^ (-(-Real.logb 10 (Hroot Ka C))) = Hroot Ka C := by
    rw [neg_neg]
    exact Real.rpow_logb (by norm_num) (by norm_num) hH
  refine ⟨-Real.logb 10 (Hroot Ka C), Hroot Ka C / C, heq, ?_, ?_,
    div_pos hH hC, (div_lt_one hC).mpr (Hroot_lt_C Ka C hKa hC)⟩
  · unfold degree_of_dissociation
    rw [heq]
    simp only [PyF.pow10neg, PyF.fdiv, if_neg hC.ne']
    rw [hpow]
  · rw [hpow]

/-- Witness for claim C10 at `Ka = 2`, `C = 3/2`. -/
theorem C10_degree_of_dissociation_bounds_witness :
    ∃ p α : ℝ, ph_from_ka 2 (3 / 2) = PyF.val p ∧
      degree_of_dissociation 2 (3 / 2) = Except.ok (PyF.val α) ∧
      α = (10 : ℝ) ^ (-p) / (3 / 2) ∧ 0 < α ∧ α < 1 :=
  C10_degree_of_dissociation_bounds 2 (3 / 2) (by norm_num) (by norm_num)
